import Mathlib

/-!
Shallow embedding of the call-session / peer-connection logic of
`src/components/call/call-interface.tsx` (the `CallInterface` component and
the `CallManager` component), verified against the repository specification.

Mutable component state (`useState` hooks and `useRef` maps) is modelled as
an explicit record `CallState`; each handler of the source becomes a Lean
function from state to state.  Asynchronous completions (`getUserMedia`
resolving, the screen-share `onended` event) are modelled as explicit
events applied to the state.
-/

namespace CallModel

/-- Kind of a media track: `'audio'` or `'video'` in the DOM API. -/
inductive MediaKind : Type
  | audio : MediaKind
  | video : MediaKind
deriving DecidableEq, Repr

/-- Model of a `MediaStreamTrack`: its kind, its `enabled` flag (flipped by the
toggle handlers) and whether `stop()` has been called on it. -/
structure MediaStreamTrack : Type where
  kind : MediaKind
  enabled : Bool
  stopped : Bool
deriving DecidableEq, Repr

/-- A `MediaStream` is modelled by its list of tracks. -/
abbrev MediaStream : Type := List MediaStreamTrack

/-- Model of `stream.getAudioTracks()`. -/
def getAudioTracks (s : MediaStream) : List MediaStreamTrack :=
  s.filter (fun t => t.kind == MediaKind.audio)

/-- Model of `stream.getVideoTracks()`. -/
def getVideoTracks (s : MediaStream) : List MediaStreamTrack :=
  s.filter (fun t => t.kind == MediaKind.video)

/-- Model of `track.stop()` (line 131: `track.stop()`). -/
def stopTrack (t : MediaStreamTrack) : MediaStreamTrack :=
  { t with stopped := true }

/-- Flip the `enabled` flag of the first track of kind `k`, in place; the
source reads the track at index 0 of the filtered list and mutates its
`enabled` flag (lines 145 and 155). -/
def toggleFirst (k : MediaKind) : MediaStream → MediaStream
  | [] => []
  | t :: ts =>
    if t.kind == k then { t with enabled := !t.enabled } :: ts
    else t :: toggleFirst k ts

/-- Model of an `RTCRtpSender` (only its current track matters here). -/
structure Sender : Type where
  track : Option MediaStreamTrack
deriving DecidableEq, Repr

/-- Predicate of the source's sender search `s.track && s.track.kind === 'video'`
(lines 171-173 and 188-190). -/
def isVideoSender (s : Sender) : Bool :=
  match s.track with
  | some t => t.kind == MediaKind.video
  | none => false

/-- Model of an `RTCPeerConnection`: its senders (one per added local track)
and whether `close()` has been called. -/
structure PeerConn : Type where
  senders : List Sender
  closed : Bool
deriving DecidableEq, Repr

/-- Model of `pc.close()` (line 135). -/
def closePC (pc : PeerConn) : PeerConn :=
  { pc with closed := true }

/-- Lines 96-106 of `createPeerConnection`: a fresh `RTCPeerConnection` with one
sender per track of the local stream (`localStream.getTracks().forEach(track =>
peerConnection.addTrack(track, localStream))`). -/
def newPeerConnection (localStream : MediaStream) : PeerConn :=
  { senders := localStream.map (fun t => { track := some t }), closed := false }

/-- Model of the JS object-map store `peerConnections.current[participantId] = pc`
(line 126): assignment overwrites an existing key, otherwise appends. -/
def insertPC (id : String) (pc : PeerConn) :
    List (String × PeerConn) → List (String × PeerConn)
  | [] => [(id, pc)]
  | (k, v) :: rest =>
    if k = id then (id, pc) :: rest else (k, v) :: insertPC id pc rest

/-- Roster entry: only the `id` field of `CallParticipant` takes part in the
peer-connection logic. -/
structure CallParticipant : Type where
  id : String
deriving DecidableEq, Repr

/-- Component state of `CallInterface`: the `useState` hooks and the
`peerConnections` ref.  `closedConnections` is a ghost log recording every
connection on which `close()` was called (the source drops the references after
closing them). -/
structure CallState : Type where
  localStream : Option MediaStream
  peerConnections : List (String × PeerConn)
  isAudioEnabled : Bool
  isVideoEnabled : Bool
  isScreenSharing : Bool
  closedConnections : List PeerConn
deriving DecidableEq, Repr

/-- Initial hook values (lines 40-50): no stream, no peer connections,
`isAudioEnabled` true, `isVideoEnabled` iff the call is a video call,
no screen share. -/
def initialCallState (callType : MediaKind) : CallState :=
  { localStream := none
    peerConnections := []
    isAudioEnabled := true
    isVideoEnabled := callType == MediaKind.video
    isScreenSharing := false
    closedConnections := [] }

/-- Lines 141-149, `toggleAudio`: if a local stream exists and has an audio
track at index 0, flip that track's `enabled` flag and report the new value
through `setIsAudioEnabled`; otherwise do nothing. -/
def toggleAudio (s : CallState) : CallState :=
  match s.localStream with
  | none => s
  | some stream =>
    match (getAudioTracks stream).head? with
    | none => s
    | some t =>
      { s with
        localStream := some (toggleFirst MediaKind.audio stream)
        isAudioEnabled := !t.enabled }

/-- Lines 151-159, `toggleVideo`: same shape as `toggleAudio` for the first
video track. -/
def toggleVideo (s : CallState) : CallState :=
  match s.localStream with
  | none => s
  | some stream =>
    match (getVideoTracks stream).head? with
    | none => s
    | some t =>
      { s with
        localStream := some (toggleFirst MediaKind.video stream)
        isVideoEnabled := !t.enabled }

/-- Lines 84-89 of `initializeMedia`: for each roster participant whose id
differs from the local user's id, create a peer connection and store it under
that participant's id. -/
def initPeerConnections (selfId : String) (participants : List CallParticipant)
    (stream : MediaStream) (m : List (String × PeerConn)) :
    List (String × PeerConn) :=
  participants.foldl
    (fun acc p =>
      if p.id != selfId then insertPC p.id (newPeerConnection stream) acc
      else acc)
    m

/-- Error raised when `getUserMedia` fails. -/
inductive MediaError : Type
  | DeviceUnavailable : MediaError
deriving DecidableEq, Repr

/-- Lines 70-93, `initializeMedia`, resumed with the outcome of
`navigator.mediaDevices.getUserMedia`: on success the stream is stored and one
peer connection per remote participant is created; on failure the `catch`
block only logs, leaving the state untouched. -/
def initializeMedia (selfId : String) (participants : List CallParticipant)
    (result : Except MediaError MediaStream) (s : CallState) : CallState :=
  match result with
  | Except.error _ => s
  | Except.ok stream =>
    { s with
      localStream := some stream
      peerConnections := initPeerConnections selfId participants stream s.peerConnections }

/-- Lines 129-139, `cleanup`: stop every track of the local stream (the stream
reference itself is not cleared), close every stored peer connection, and empty
the peer-connection map. -/
def cleanup (s : CallState) : CallState :=
  { s with
    localStream := s.localStream.map (fun st => st.map stopTrack)
    peerConnections := []
    closedConnections :=
      s.closedConnections ++ s.peerConnections.map (fun p => closePC p.2) }

/-- True when every track of the (optional) stream has been stopped. -/
def streamAllStopped (os : Option MediaStream) : Bool :=
  match os with
  | none => true
  | some st => st.all (fun t => t.stopped)

/-- Replace the track of the first video sender of a sender list, leaving every
other sender untouched: model of `pc.getSenders().find(s => s.track &&
s.track.kind === 'video')` followed by `sender.replaceTrack(newTrack)`
(lines 187-194). -/
def replaceFirstVideo (newTrack : MediaStreamTrack) : List Sender → List Sender
  | [] => []
  | s :: rest =>
    if isVideoSender s then { track := some newTrack } :: rest
    else s :: replaceFirstVideo newTrack rest

/-- Lines 182-196, the `videoTrack.onended` handler installed by
`startScreenShare`: clear the screen-sharing flag, and if a local stream with a
camera (video) track exists, replace the first video sender of every stored
peer connection with that camera track.  Audio senders are never touched. -/
def onScreenShareEnded (s : CallState) : CallState :=
  { s with
    isScreenSharing := false
    peerConnections :=
      match s.localStream with
      | none => s.peerConnections
      | some stream =>
        match (getVideoTracks stream).head? with
        | none => s.peerConnections
        | some cameraTrack =>
          s.peerConnections.map
            (fun p => (p.1, { p.2 with senders := replaceFirstVideo cameraTrack p.2.senders })) }

/-- Statement that a sender list `new` arose from `old` by restoring the camera
track on exactly the first video sender: `old` splits as non-video senders,
one video sender, and a tail, and `new` is identical except that the video
sender now carries `cam`. -/
def RestoredOnce (cam : MediaStreamTrack) (old new : List Sender) : Prop :=
  ∃ l1 sv l2,
    old = l1 ++ sv :: l2 ∧
    (∀ x ∈ l1, isVideoSender x = false) ∧
    isVideoSender sv = true ∧
    new = l1 ++ ({ track := some cam } : Sender) :: l2

/-- True when a sender currently carries an audio track. -/
def isAudioSender (s : Sender) : Bool :=
  match s.track with
  | some t => t.kind == MediaKind.audio
  | none => false

/-- The senders of a list that carry an audio track. -/
def audioSenders (l : List Sender) : List Sender :=
  l.filter isAudioSender

/-! ### System-level model of the device-acquisition race

`initializeMedia` is asynchronous: `getUserMedia` may still be pending when
the component unmounts and `cleanup` runs.  The source has no guard on the
continuation (lines 77-89), so a stream resolving after `cleanup` is stored
and peer connections are created for it, with `ended` already true. -/

/-- Whole-system state around one `CallInterface` mount: the component state, a
flag for an outstanding `getUserMedia` request, and whether `cleanup` has run
(the call was ended / the component unmounted). -/
structure SysState : Type where
  call : CallState
  pendingAcquire : Bool
  ended : Bool
deriving DecidableEq, Repr

/-- Mount effect (lines 62-68): `initializeMedia()` issues the `getUserMedia`
request, which is now pending. -/
def startAcquire (s : SysState) : SysState :=
  { s with pendingAcquire := true }

/-- End of the call (unmount effect / `onEndCall`, lines 62-68): `cleanup` runs
on the current component state.  Nothing in the source cancels a pending
`getUserMedia` request. -/
def endCall (s : SysState) : SysState :=
  { s with call := cleanup s.call, ended := true }

/-- The pending `getUserMedia` promise resolves with `stream`: the continuation
of `initializeMedia` (lines 77-89) runs unconditionally — it stores the stream
and creates the peer connections even if `cleanup` has already run. -/
def resolveAcquire (selfId : String) (participants : List CallParticipant)
    (stream : MediaStream) (s : SysState) : SysState :=
  if s.pendingAcquire then
    { s with
      pendingAcquire := false
      call := initializeMedia selfId participants (Except.ok stream) s.call }
  else s

/-! ### Call duration timer

Lines 51-60: `callStartTime` is recorded once at mount; a `setInterval` fires
every second and each tick overwrites `callDuration` with
`Math.floor((Date.now() - callStartTime.current) / 1000)`. -/

/-- Value written by one timer tick firing at time `now` (line 56). -/
def tickValue (start now : Nat) : Nat :=
  (now - start) / 1000

/-- The `callDuration` value visible at a read at time `t`, given the list of
tick firing times: every tick that has fired by `t` overwrites the value in
list order; before any tick it is the initial 0 (line 44). -/
def readDuration (start : Nat) (ticks : List Nat) (t : Nat) : Nat :=
  ticks.foldl (fun acc tk => if tk ≤ t then tickValue start tk else acc) 0

/-- Modelled from the spec: the duration "recomputed on demand as a pure
function of (current time − recorded start time)" that the specification
prescribes, to be compared with the source's interval-timer value. -/
def specOnDemandDuration (start t : Nat) : Nat :=
  (t - start) / 1000

/-! ### Call Session Manager

`CallManager` in the same file: its `startCall` (lines 603-606) only logs
`Starting ... call with ...` and returns; it inspects nothing and changes
nothing. -/

/-- Session-start errors named by the specification's error taxonomy. -/
inductive CallError : Type
  | AlreadyInSession : CallError
  | DeviceUnavailable : CallError
deriving DecidableEq, Repr

/-- Application-level call state seen by the manager: the (at most one) mounted
call session, if any. -/
structure AppCallState : Type where
  session : Option CallState
deriving DecidableEq, Repr

/-- Lines 603-606, `startCall` of `CallManager`: the body is a single
`console.log`; no session is created, no existing state is read or written,
and no error is produced. -/
def startCall (callType : MediaKind) (participantId : String)
    (a : AppCallState) : AppCallState × Option CallError :=
  (a, none)

/-! ### Peer Link candidate queue (spec-modelled)

The source never handles remote ICE candidates: the only candidate code is the
`onicecandidate` handler for local candidates, which logs and returns
(lines 117-124). -/

/-- An ICE candidate, kept opaque. -/
structure Candidate : Type where
  data : String
deriving DecidableEq, Repr

/-- Modelled from the spec: the Peer Link of section 4.3 — the source has no
`handleRemoteCandidate`; this record holds whether the local description has
been set, the FIFO queue of candidates received early, and the list of
candidates applied so far in application order. -/
structure PeerLink : Type where
  localDescriptionSet : Bool
  pending : List Candidate
  applied : List Candidate
deriving DecidableEq, Repr

/-- Modelled from the spec: a freshly opened Peer Link — no local description,
nothing queued, nothing applied. -/
def freshPeerLink : PeerLink :=
  { localDescriptionSet := false, pending := [], applied := [] }

/-- Modelled from the spec: `handleRemoteCandidate(candidate)` — "if received
before local description is set, must be queued and replayed once ready";
once the local description is set, candidates are applied directly. -/
def handleRemoteCandidate (c : Candidate) (pl : PeerLink) : PeerLink :=
  if pl.localDescriptionSet then { pl with applied := pl.applied ++ [c] }
  else { pl with pending := pl.pending ++ [c] }

/-- Modelled from the spec: completing local setup sets the local description
and replays every queued candidate in FIFO order. -/
def completeLocalSetup (pl : PeerLink) : PeerLink :=
  { localDescriptionSet := true
    pending := []
    applied := pl.applied ++ pl.pending }

/-- Receive a whole sequence of remote candidates, in arrival order. -/
def receiveAll (cs : List Candidate) (pl : PeerLink) : PeerLink :=
  cs.foldl (fun acc c => handleRemoteCandidate c acc) pl

/-! ## Helper lemmas -/

/-- Stopping a track twice is the same as stopping it once. -/
theorem stopTrack_stopTrack (t : MediaStreamTrack) :
    stopTrack (stopTrack t) = stopTrack t := rfl

/-- Candidates received while no local description is set all go to the
pending queue, in arrival order. -/
theorem receiveAll_pending (cs : List Candidate) (pl : PeerLink)
    (h : pl.localDescriptionSet = false) :
    receiveAll cs pl = { pl with pending := pl.pending ++ cs } := by
  induction cs generalizing pl with
  | nil => simp [receiveAll]
  | cons c cs ih =>
    have hstep : handleRemoteCandidate c pl = { pl with pending := pl.pending ++ [c] } := by
      simp [handleRemoteCandidate, h]
    have h2 : (handleRemoteCandidate c pl).localDescriptionSet = false := by
      rw [hstep]; exact h
    calc receiveAll (c :: cs) pl
        = receiveAll cs (handleRemoteCandidate c pl) := rfl
      _ = { handleRemoteCandidate c pl with
              pending := (handleRemoteCandidate c pl).pending ++ cs } := ih _ h2
      _ = { pl with pending := pl.pending ++ (c :: cs) } := by
          rw [hstep]; simp

/-- Toggling the first audio track flips exactly its `enabled` flag: the head
of the audio-track list gets negated `enabled`, and no track's `stopped` flag
changes. -/
theorem toggleFirst_audio_spec (st : MediaStream) (t : MediaStreamTrack)
    (h : (getAudioTracks st).head? = some t) :
    (getAudioTracks (toggleFirst MediaKind.audio st)).head?
      = some { t with enabled := !t.enabled } ∧
    (toggleFirst MediaKind.audio st).map (fun x => x.stopped)
      = st.map (fun x => x.stopped) := by
  induction st with
  | nil => simp [getAudioTracks] at h
  | cons x xs ih =>
    by_cases hx : (x.kind == MediaKind.audio) = true
    · have ht : t = x := by
        simp [getAudioTracks, List.filter_cons, hx] at h
        exact h.symm
      subst ht
      constructor
      · simp [toggleFirst, hx, getAudioTracks, List.filter_cons]
      · simp [toggleFirst, hx]
    · have hx' : (x.kind == MediaKind.audio) = false := by simpa using hx
      have h' : (getAudioTracks xs).head? = some t := by
        simpa [getAudioTracks, List.filter_cons, hx'] using h
      obtain ⟨ih1, ih2⟩ := ih h'
      constructor
      · simpa [toggleFirst, hx', getAudioTracks, List.filter_cons] using ih1
      · simp [toggleFirst, hx', ih2]

/-- One `toggleAudio` step from a state whose first audio track exists and is
reflected by the reported flag: the flag flips, the stopped flags are
untouched, and the reported state tracks the flag. -/
theorem toggleAudio_step (s : CallState) (st : MediaStream) (t : MediaStreamTrack)
    (hs : s.localStream = some st)
    (ht : (getAudioTracks st).head? = some t) :
    ∃ st' t', (toggleAudio s).localStream = some st' ∧
      (getAudioTracks st').head? = some t' ∧
      t'.enabled = !t.enabled ∧
      (toggleAudio s).isAudioEnabled = t'.enabled ∧
      st'.map (fun x => x.stopped) = st.map (fun x => x.stopped) := by
  obtain ⟨h1, h2⟩ := toggleFirst_audio_spec st t ht
  refine ⟨toggleFirst MediaKind.audio st, { t with enabled := !t.enabled },
    ?_, h1, rfl, ?_, h2⟩
  · simp [toggleAudio, hs, ht]
  · simp [toggleAudio, hs, ht]

/-- Iterating `toggleAudio` n times flips the first audio track's flag n
times, keeps the reported flag in sync, and never stops any track. -/
theorem toggleAudio_iter (n : Nat) (s : CallState) (st : MediaStream)
    (t : MediaStreamTrack)
    (hs : s.localStream = some st)
    (ht : (getAudioTracks st).head? = some t)
    (hr : s.isAudioEnabled = t.enabled) :
    ∃ st' t', (toggleAudio^[n] s).localStream = some st' ∧
      (getAudioTracks st').head? = some t' ∧
      t'.enabled = xor (n % 2 == 1) t.enabled ∧
      (toggleAudio^[n] s).isAudioEnabled = t'.enabled ∧
      st'.map (fun x => x.stopped) = st.map (fun x => x.stopped) := by
  induction n generalizing s st t with
  | zero => exact ⟨st, t, by simpa using hs, ht, by simp, by simpa using hr, rfl⟩
  | succ n ih =>
    obtain ⟨st1, t1, h1, h2, h3, h4, h5⟩ := toggleAudio_step s st t hs ht
    obtain ⟨st', t', g1, g2, g3, g4, g5⟩ := ih (toggleAudio s) st1 t1 h1 h2 h4
    refine ⟨st', t', ?_, g2, ?_, ?_, ?_⟩
    · rw [Function.iterate_succ_apply]; exact g1
    · rw [g3, h3]
      have hpar : (((n + 1) % 2 == 1) : Bool) = !(n % 2 == 1) := by
        rcases Nat.mod_two_eq_zero_or_one n with hm | hm <;>
          simp [Nat.add_mod, hm]
      rw [hpar]
      generalize ((n % 2 == 1) : Bool) = b
      cases b <;> cases t.enabled <;> rfl
    · rw [Function.iterate_succ_apply]; exact g4
    · rw [g5]; exact h5

/-- Inserting a key that is absent from the object map appends the binding. -/
theorem insertPC_of_not_mem (id : String) (pc : PeerConn)
    (m : List (String × PeerConn)) (h : id ∉ m.map Prod.fst) :
    insertPC id pc m = m ++ [(id, pc)] := by
  induction m with
  | nil => rfl
  | cons kv rest ih =>
    obtain ⟨k, v⟩ := kv
    simp only [List.map_cons, List.mem_cons, not_or] at h
    obtain ⟨h1, h2⟩ := h
    have hk : ¬(k = id) := fun hke => h1 hke.symm
    simp [insertPC, hk, ih h2]

/-- Keys produced by the roster loop: starting from a map disjoint from the
roster, the loop appends exactly one binding per roster participant whose id
differs from the local user's id, in roster order. -/
theorem initPC_keys (selfId : String) (stream : MediaStream)
    (participants : List CallParticipant) (m : List (String × PeerConn))
    (hdisj : ∀ p ∈ participants, p.id ∉ m.map Prod.fst)
    (hnodup : (participants.map (fun p => p.id)).Nodup) :
    (initPeerConnections selfId participants stream m).map Prod.fst
      = m.map Prod.fst
        ++ (participants.filter (fun p => p.id != selfId)).map (fun p => p.id) := by
  induction participants generalizing m with
  | nil => simp [initPeerConnections]
  | cons p ps ih =>
    simp only [List.map_cons, List.nodup_cons] at hnodup
    obtain ⟨hpn, hnd⟩ := hnodup
    by_cases hp : (p.id != selfId) = true
    · have hnotm : p.id ∉ m.map Prod.fst := hdisj p (List.mem_cons_self _ _)
      have hins := insertPC_of_not_mem p.id (newPeerConnection stream) m hnotm
      have hne : ¬(p.id = selfId) := by simpa using hp
      have hstep : initPeerConnections selfId (p :: ps) stream m
          = initPeerConnections selfId ps stream
              (m ++ [(p.id, newPeerConnection stream)]) := by
        simp [initPeerConnections, hne, hins]
      have hd' : ∀ q ∈ ps,
          q.id ∉ (m ++ [(p.id, newPeerConnection stream)]).map Prod.fst := by
        intro q hq
        simp only [List.map_append, List.mem_append, List.map_cons, List.map_nil,
          List.mem_singleton, not_or]
        refine ⟨hdisj q (List.mem_cons_of_mem _ hq), fun hqe => ?_⟩
        exact hpn (hqe ▸ List.mem_map_of_mem (fun r => r.id) hq)
      rw [hstep, ih _ hd' hnd]
      simp [List.filter_cons, hp, List.append_assoc]
    · have hpeq : (p.id != selfId) = false := by simpa using hp
      have heq : p.id = selfId := by simpa using hpeq
      have hstep : initPeerConnections selfId (p :: ps) stream m
          = initPeerConnections selfId ps stream m := by
        simp [initPeerConnections, heq]
      rw [hstep, ih _ (fun q hq => hdisj q (List.mem_cons_of_mem _ hq)) hnd]
      simp [List.filter_cons, hpeq]

/-- Replacing the first video sender changes exactly that sender: the list
splits into a video-free prefix, the replaced sender, and an untouched tail. -/
theorem replaceFirstVideo_restoredOnce (cam : MediaStreamTrack) (l : List Sender)
    (h : l.any isVideoSender = true) :
    RestoredOnce cam l (replaceFirstVideo cam l) := by
  induction l with
  | nil => simp at h
  | cons s rest ih =>
    by_cases hs : isVideoSender s = true
    · exact ⟨[], s, rest, by simp, by simp, hs, by simp [replaceFirstVideo, hs]⟩
    · have hs' : isVideoSender s = false := by simpa using hs
      have h' : rest.any isVideoSender = true := by
        simpa [List.any_cons, hs'] using h
      obtain ⟨l1, sv, l2, e1, e2, e3, e4⟩ := ih h'
      refine ⟨s :: l1, sv, l2, by rw [List.cons_append, e1], ?_, e3, ?_⟩
      · intro x hx
        rcases List.mem_cons.mp hx with hx | hx
        · rw [hx]; exact hs'
        · exact e2 x hx
      · simp [replaceFirstVideo, hs', e4]

/-- Replacing the first video sender with a video-kind track leaves the audio
senders unchanged. -/
theorem replaceFirstVideo_audio (cam : MediaStreamTrack)
    (hcam : cam.kind = MediaKind.video) (l : List Sender) :
    audioSenders (replaceFirstVideo cam l) = audioSenders l := by
  induction l with
  | nil => rfl
  | cons s rest ih =>
    by_cases hs : isVideoSender s = true
    · cases hst : s.track with
      | none => simp [isVideoSender, hst] at hs
      | some t =>
        have htk : t.kind = MediaKind.video := by
          simpa [isVideoSender, hst] using hs
        simp [replaceFirstVideo, hs, audioSenders, List.filter_cons,
          isAudioSender, hst, htk, hcam]
    · have hs' : isVideoSender s = false := by simpa using hs
      simp only [audioSenders] at ih
      simp [replaceFirstVideo, hs', audioSenders, List.filter_cons, ih]

/-- Elapsed-seconds value is monotone in the clock reading. -/
theorem tickValue_mono (start : Nat) (a b : Nat) (h : a ≤ b) :
    tickValue start a ≤ tickValue start b :=
  Nat.div_le_div_right (Nat.sub_le_sub_right h start)

/-- Fold invariant of the duration timer: the displayed value grows with the
read time and never exceeds the on-tick value of the read time. -/
theorem readDuration_fold_mono (start : Nat) (ticks : List Nat) (t1 t2 : Nat)
    (h : t1 ≤ t2) :
    ∀ acc1 acc2, acc1 ≤ acc2 → acc1 ≤ tickValue start t1 →
      (ticks.foldl (fun acc tk => if tk ≤ t1 then tickValue start tk else acc) acc1
        ≤ ticks.foldl (fun acc tk => if tk ≤ t2 then tickValue start tk else acc) acc2) ∧
      ticks.foldl (fun acc tk => if tk ≤ t1 then tickValue start tk else acc) acc1
        ≤ tickValue start t1 := by
  induction ticks with
  | nil => intro acc1 acc2 h1 h2; exact ⟨h1, h2⟩
  | cons tk rest ih =>
    intro acc1 acc2 h1 h2
    simp only [List.foldl_cons]
    by_cases htk1 : tk ≤ t1
    · have htk2 : tk ≤ t2 := le_trans htk1 h
      rw [if_pos htk1, if_pos htk2]
      exact ih _ _ (le_refl _) (tickValue_mono start tk t1 htk1)
    · rw [if_neg htk1]
      by_cases htk2 : tk ≤ t2
      · rw [if_pos htk2]
        have hle : acc1 ≤ tickValue start tk :=
          le_trans h2 (tickValue_mono start t1 tk (le_of_lt (Nat.lt_of_not_le htk1)))
        exact ih _ _ hle h2
      · rw [if_neg htk2]
        exact ih _ _ h1 h2

/-! ## Claim theorems -/

/-- C1: the claim says `end()` from any state — including while device
acquisition is still pending — always yields `ended` with every local track
stopped and the peer-connection map empty.  The code violates this: when
`cleanup` runs while `getUserMedia` is pending, the unguarded continuation of
`initializeMedia` later stores the live stream and creates peer connections,
so after the trace below the call is ended yet the map is non-empty and the
acquired tracks were never stopped. -/
theorem end_midconnect_leaks :
    (resolveAcquire "me" [{ id := "me" }, { id := "peer" }]
        [{ kind := MediaKind.audio, enabled := true, stopped := false },
         { kind := MediaKind.video, enabled := true, stopped := false }]
        (endCall (startAcquire
          { call := initialCallState MediaKind.video
            pendingAcquire := false
            ended := false }))).ended = true ∧
    (resolveAcquire "me" [{ id := "me" }, { id := "peer" }]
        [{ kind := MediaKind.audio, enabled := true, stopped := false },
         { kind := MediaKind.video, enabled := true, stopped := false }]
        (endCall (startAcquire
          { call := initialCallState MediaKind.video
            pendingAcquire := false
            ended := false }))).call.peerConnections ≠ [] ∧
    streamAllStopped
      (resolveAcquire "me" [{ id := "me" }, { id := "peer" }]
        [{ kind := MediaKind.audio, enabled := true, stopped := false },
         { kind := MediaKind.video, enabled := true, stopped := false }]
        (endCall (startAcquire
          { call := initialCallState MediaKind.video
            pendingAcquire := false
            ended := false }))).call.localStream = false := by
  refine ⟨rfl, ?_, rfl⟩
  decide

/-- C2 counterexample: with a session mounted (here a freshly initialised video
call), `startCall` does not fail with `AlreadyInSession` — its body is a
logging stub that reports no error at all. -/
theorem startCall_no_alreadyInSession :
    (startCall MediaKind.video "2"
        { session := some (initialCallState MediaKind.video) }).2
      ≠ some CallError.AlreadyInSession := by
  simp [startCall]

/-- C2 (amended): `startCall` creates no second session and leaves the whole
application call state — in particular any existing session — entirely
unchanged, and it reports no error (so it never fails with
`AlreadyInSession`). -/
theorem startCall_stub_noop (callType : MediaKind) (participantId : String)
    (a : AppCallState) :
    startCall callType participantId a = (a, none) := rfl

/-- C3: every remote candidate received before the local description is set is
queued, and completing local setup applies the whole queue in FIFO arrival
order after the previously applied candidates; none is dropped (spec-modelled:
the source has no remote-candidate path). -/
theorem early_candidates_replayed_fifo (cs : List Candidate) (pl : PeerLink)
    (h : pl.localDescriptionSet = false) :
    (completeLocalSetup (receiveAll cs pl)).applied = pl.applied ++ (pl.pending ++ cs) ∧
    (completeLocalSetup (receiveAll cs pl)).pending = [] := by
  rw [receiveAll_pending cs pl h]
  simp [completeLocalSetup]

/-- C3 witness: three candidates enqueued on a fresh Peer Link before local
setup completes are all applied, in FIFO order. -/
theorem early_candidates_replayed_fifo_witness :
    (completeLocalSetup (receiveAll
        [{ data := "c1" }, { data := "c2" }, { data := "c3" }] freshPeerLink)).applied
      = [] ++ ([] ++ [{ data := "c1" }, { data := "c2" }, { data := "c3" }]) ∧
    (completeLocalSetup (receiveAll
        [{ data := "c1" }, { data := "c2" }, { data := "c3" }] freshPeerLink)).pending
      = [] :=
  early_candidates_replayed_fifo
    [{ data := "c1" }, { data := "c2" }, { data := "c3" }] freshPeerLink rfl

/-- C4: when `getUserMedia` fails (`DeviceUnavailable`), `initializeMedia`
leaves the state exactly as it was — no stream handle is stored, no peer
connection is created; from the initial (idle) state the session therefore
stays idle. -/
theorem device_failure_no_partial_state (selfId : String)
    (participants : List CallParticipant) (e : MediaError)
    (s : CallState) (callType : MediaKind) :
    initializeMedia selfId participants (Except.error e) s = s ∧
    (initializeMedia selfId participants (Except.error e)
        (initialCallState callType)).localStream = none ∧
    (initializeMedia selfId participants (Except.error e)
        (initialCallState callType)).peerConnections = [] := by
  exact ⟨rfl, rfl, rfl⟩

/-- C5: after n `toggleAudio` calls on a state whose local stream's first
audio track is enabled (and reported as such), the track's enabled flag equals
the parity of n (enabled iff n is even), the reported audio-enabled state
equals the track's flag, and no track of the stream is ever stopped. -/
theorem toggleAudio_parity (n : Nat) (s : CallState) (st : MediaStream)
    (t : MediaStreamTrack)
    (hs : s.localStream = some st)
    (ht : (getAudioTracks st).head? = some t)
    (he : t.enabled = true)
    (hr : s.isAudioEnabled = true) :
    ∃ st' t', (toggleAudio^[n] s).localStream = some st' ∧
      (getAudioTracks st').head? = some t' ∧
      (t'.enabled = true ↔ n % 2 = 0) ∧
      (toggleAudio^[n] s).isAudioEnabled = t'.enabled ∧
      st'.map (fun x => x.stopped) = st.map (fun x => x.stopped) := by
  obtain ⟨st', t', h1, h2, h3, h4, h5⟩ :=
    toggleAudio_iter n s st t hs ht (by rw [hr, he])
  refine ⟨st', t', h1, h2, ?_, h4, h5⟩
  rw [h3, he]
  rcases Nat.mod_two_eq_zero_or_one n with hm | hm <;> simp [hm]

/-- C5 witness: three toggles on a one-audio-track stream leave the track
disabled (3 is odd), reported in sync, nothing stopped. -/
theorem toggleAudio_parity_witness :
    ∃ st' t',
      (toggleAudio^[3]
        { localStream := some
            [{ kind := MediaKind.audio, enabled := true, stopped := false }]
          peerConnections := []
          isAudioEnabled := true
          isVideoEnabled := false
          isScreenSharing := false
          closedConnections := [] }).localStream = some st' ∧
      (getAudioTracks st').head? = some t' ∧
      (t'.enabled = true ↔ 3 % 2 = 0) ∧
      (toggleAudio^[3]
        { localStream := some
            [{ kind := MediaKind.audio, enabled := true, stopped := false }]
          peerConnections := []
          isAudioEnabled := true
          isVideoEnabled := false
          isScreenSharing := false
          closedConnections := [] }).isAudioEnabled = t'.enabled ∧
      st'.map (fun x => x.stopped)
        = ([{ kind := MediaKind.audio, enabled := true, stopped := false }] :
            MediaStream).map (fun x => x.stopped) :=
  toggleAudio_parity 3 _
    [{ kind := MediaKind.audio, enabled := true, stopped := false }]
    { kind := MediaKind.audio, enabled := true, stopped := false }
    rfl rfl rfl rfl

/-- C6: starting from an empty map, the roster loop creates exactly one peer
connection per participant whose id differs from the local user's id, keyed by
those ids in roster order, and none keyed by the local user's id. -/
theorem peer_links_per_remote (selfId : String)
    (participants : List CallParticipant) (stream : MediaStream)
    (hnodup : (participants.map (fun p => p.id)).Nodup) :
    (initPeerConnections selfId participants stream []).map Prod.fst
      = (participants.filter (fun p => p.id != selfId)).map (fun p => p.id) ∧
    selfId ∉ (initPeerConnections selfId participants stream []).map Prod.fst := by
  have h := initPC_keys selfId stream participants []
    (by intro q hq; simp) hnodup
  simp only [List.map_nil, List.nil_append] at h
  refine ⟨h, ?_⟩
  rw [h]
  intro hmem
  obtain ⟨q, hq, hqe⟩ := List.mem_map.mp hmem
  have hfil := List.of_mem_filter hq
  rw [hqe] at hfil
  simp at hfil

/-- C6 witness: a roster of 3 participants containing the local user yields
exactly the 2 remote peer connections, keyed by the remote ids. -/
theorem peer_links_per_remote_witness :
    (initPeerConnections "me" [{ id := "me" }, { id := "a" }, { id := "b" }]
        [{ kind := MediaKind.video, enabled := true, stopped := false }] []).map
        Prod.fst
      = ["a", "b"] ∧
    "me" ∉ (initPeerConnections "me" [{ id := "me" }, { id := "a" }, { id := "b" }]
        [{ kind := MediaKind.video, enabled := true, stopped := false }] []).map
        Prod.fst := by
  have h := peer_links_per_remote "me"
    [{ id := "me" }, { id := "a" }, { id := "b" }]
    [{ kind := MediaKind.video, enabled := true, stopped := false }] (by decide)
  refine ⟨?_, h.2⟩
  rw [h.1]
  decide

/-- C7: when the screen-share track's ended event fires with a camera track
available, every stored peer connection has exactly its first video sender
restored to the camera track — a single replacement per connection, with the
prefix before it video-free and the tail untouched — and its audio senders are
left unchanged. -/
theorem screenshare_end_restores_camera (s : CallState) (stream : MediaStream)
    (cam : MediaStreamTrack)
    (hs : s.localStream = some stream)
    (hc : (getVideoTracks stream).head? = some cam)
    (hv : ∀ p ∈ s.peerConnections, p.2.senders.any isVideoSender = true) :
    (onScreenShareEnded s).isScreenSharing = false ∧
    (onScreenShareEnded s).peerConnections
      = s.peerConnections.map
          (fun p => (p.1, { p.2 with senders := replaceFirstVideo cam p.2.senders })) ∧
    ∀ p ∈ s.peerConnections,
      RestoredOnce cam p.2.senders (replaceFirstVideo cam p.2.senders) ∧
      audioSenders (replaceFirstVideo cam p.2.senders) = audioSenders p.2.senders := by
  have hcam : cam.kind = MediaKind.video := by
    have hmem : cam ∈ getVideoTracks stream := by
      cases hgv : getVideoTracks stream with
      | nil => rw [hgv] at hc; simp at hc
      | cons a l =>
        rw [hgv] at hc
        simp at hc
        subst hc
        exact List.mem_cons_self _ _
    have hfil := List.of_mem_filter hmem
    simpa using hfil
  refine ⟨rfl, ?_, ?_⟩
  · simp [onScreenShareEnded, hs, hc]
  · intro p hp
    exact ⟨replaceFirstVideo_restoredOnce cam p.2.senders (hv p hp),
      replaceFirstVideo_audio cam hcam p.2.senders⟩

/-- Camera track of the screen-share witness example. -/
def camExample : MediaStreamTrack :=
  { kind := MediaKind.video, enabled := true, stopped := false }

/-- Example call state for the screen-share witness: two peer connections,
each with an audio sender and a (screen-)video sender, and a local stream
holding the microphone and camera tracks. -/
def screenShareExample : CallState :=
  { localStream := some
      [{ kind := MediaKind.audio, enabled := true, stopped := false },
       { kind := MediaKind.video, enabled := true, stopped := false }]
    peerConnections :=
      [("a",
        { senders :=
            [{ track := some { kind := MediaKind.audio, enabled := true, stopped := false } },
             { track := some { kind := MediaKind.video, enabled := false, stopped := false } }],
          closed := false }),
       ("b",
        { senders :=
            [{ track := some { kind := MediaKind.audio, enabled := true, stopped := false } },
             { track := some { kind := MediaKind.video, enabled := false, stopped := false } }],
          closed := false })]
    isAudioEnabled := true
    isVideoEnabled := true
    isScreenSharing := true
    closedConnections := [] }

/-- C7 witness: the screen-share-ended handler on the example state restores
the camera track on both connections exactly once and keeps audio senders. -/
theorem screenshare_end_restores_camera_witness :
    (onScreenShareEnded screenShareExample).isScreenSharing = false ∧
    (onScreenShareEnded screenShareExample).peerConnections
      = screenShareExample.peerConnections.map
          (fun p => (p.1, { p.2 with senders := replaceFirstVideo camExample p.2.senders })) ∧
    ∀ p ∈ screenShareExample.peerConnections,
      RestoredOnce camExample p.2.senders (replaceFirstVideo camExample p.2.senders) ∧
      audioSenders (replaceFirstVideo camExample p.2.senders)
        = audioSenders p.2.senders :=
  screenshare_end_restores_camera screenShareExample
    [{ kind := MediaKind.audio, enabled := true, stopped := false }, camExample]
    camExample rfl rfl (by decide)

/-- C9 counterexample: the claim says the duration is recomputed on demand as
a pure function of (current time − start time); in the code a read between
ticks returns the value of the last tick, which differs from the on-demand
value — here a read at 2500 ms after a single tick at 1000 ms shows 1 s while
the on-demand value is 2 s. -/
theorem duration_not_on_demand :
    readDuration 0 [1000] 2500 = 1 ∧
    specOnDemandDuration 0 2500 = 2 ∧
    readDuration 0 [1000] 2500 ≠ specOnDemandDuration 0 2500 := by
  refine ⟨rfl, rfl, ?_⟩
  decide

/-- C9 (amended): the interval-timer duration recomputes each tick from the
recorded start time, so reads are monotone — a later read is greater than or
equal to an earlier one — and the displayed value never exceeds the pure
on-demand value of the read time. -/
theorem duration_monotone (start : Nat) (ticks : List Nat) (t1 t2 : Nat)
    (h : t1 ≤ t2) :
    readDuration start ticks t1 ≤ readDuration start ticks t2 ∧
    readDuration start ticks t1 ≤ specOnDemandDuration start t1 :=
  readDuration_fold_mono start ticks t1 t2 h 0 0 (le_refl 0) (Nat.zero_le _)

/-- C9 witness: two reads around concrete tick times are ordered, and the
earlier read is bounded by the on-demand value. -/
theorem duration_monotone_witness :
    readDuration 0 [1000, 2000] 1500 ≤ readDuration 0 [1000, 2000] 2500 ∧
    readDuration 0 [1000, 2000] 1500 ≤ specOnDemandDuration 0 1500 :=
  duration_monotone 0 [1000, 2000] 1500 2500 (by decide)

/-- C8: `cleanup` is idempotent — a second call yields the very same state —
and after one call every local track is stopped, the peer-connection map is
empty, and every connection closed by the call carries `closed = true`. -/
theorem cleanup_idempotent (s : CallState) :
    cleanup (cleanup s) = cleanup s ∧
    (cleanup s).peerConnections = [] ∧
    streamAllStopped (cleanup s).localStream = true ∧
    (((cleanup s).closedConnections.drop s.closedConnections.length).all
        (fun pc => pc.closed)) = true := by
  refine ⟨?_, rfl, ?_, ?_⟩
  · cases hls : s.localStream with
    | none => simp [cleanup, hls]
    | some st => simp [cleanup, hls, List.map_map, Function.comp, stopTrack]
  · cases hls : s.localStream with
    | none => simp [cleanup, hls, streamAllStopped]
    | some st =>
      simp [cleanup, hls, streamAllStopped, List.all_map, Function.comp, stopTrack]
  · rw [show (cleanup s).closedConnections
        = s.closedConnections ++ s.peerConnections.map (fun p => closePC p.2) from rfl,
      List.drop_left]
    simp only [List.all_eq_true, List.mem_map]
    rintro x ⟨p, hp, rfl⟩
    rfl

/-- C10: toggling audio or video with no acquired local stream, or toggling a
kind the stream has no track of, is a silent no-op: the state (including the
reported enabled flags) is unchanged. -/
theorem toggle_without_track_noop (s : CallState) (st : MediaStream) :
    (s.localStream = none → toggleAudio s = s ∧ toggleVideo s = s) ∧
    (s.localStream = some st → getAudioTracks st = [] → toggleAudio s = s) ∧
    (s.localStream = some st → getVideoTracks st = [] → toggleVideo s = s) := by
  refine ⟨fun h => ⟨?_, ?_⟩, fun h ha => ?_, fun h hv => ?_⟩
  · simp [toggleAudio, h]
  · simp [toggleVideo, h]
  · simp [toggleAudio, h, ha]
  · simp [toggleVideo, h, hv]

/-- C10 witness: on a video-only stream, `toggleAudio` changes nothing, and
with no stream at all, `toggleVideo` changes nothing. -/
theorem toggle_without_track_noop_witness :
    toggleAudio
      { localStream := some [{ kind := MediaKind.video, enabled := true, stopped := false }]
        peerConnections := []
        isAudioEnabled := true
        isVideoEnabled := true
        isScreenSharing := false
        closedConnections := [] }
      = { localStream := some [{ kind := MediaKind.video, enabled := true, stopped := false }]
          peerConnections := []
          isAudioEnabled := true
          isVideoEnabled := true
          isScreenSharing := false
          closedConnections := [] } ∧
    toggleVideo (initialCallState MediaKind.audio) = initialCallState MediaKind.audio := by
  constructor
  · exact (toggle_without_track_noop _
      [{ kind := MediaKind.video, enabled := true, stopped := false }]).2.1 rfl rfl
  · exact ((toggle_without_track_noop (initialCallState MediaKind.audio) []).1 rfl).2

end CallModel
